import Mathlib

/-!
Verification development for `rs-benchmark.py`, a Redshift insert-throughput
benchmarking tool.  The script is shallowly embedded below: the synthetic row
generator, the three load-strategy branches of the `insert` command (bulk,
copy, classic), statement execution, table initialization, and the timing
report lines are modelled as executable Lean functions.  Randomness
(`random.randint`, `random.random`, `random.choice`) is modelled by explicit
entropy oracles that satisfy the documented contracts of those Python
functions; wall-clock measurements (`time.time()` differences) are modelled
by oracle-supplied nonnegative rational durations.
-/

namespace RsBenchmark

/-- Python `round(x, ndigits)`: round to `n` decimal digits, ties to even
(banker's rounding), on exact rationals. -/
def pyRound (x : ℚ) (n : ℕ) : ℚ :=
  ((if Int.fract (x * 10 ^ n) < 1 / 2 then ⌊x * 10 ^ n⌋
    else if 1 / 2 < Int.fract (x * 10 ^ n) then ⌊x * 10 ^ n⌋ + 1
    else if ⌊x * 10 ^ n⌋ % 2 = 0 then ⌊x * 10 ^ n⌋ else ⌊x * 10 ^ n⌋ + 1 : ℤ) : ℚ) / 10 ^ n

/-- Python `random.randint(lo, hi)`: a uniformly chosen integer `N` with
`lo ≤ N ≤ hi` (both endpoints INCLUSIVE, per the Python documentation).
The entropy `u` selects which value in the range is returned; every value of
`u` yields a value in `[lo, hi]` and every value in `[lo, hi]` is reachable. -/
def randint (lo hi : ℤ) (u : ℕ) : ℤ :=
  lo + (u : ℤ) % (hi - lo + 1)

/-- Python `random.random()`: a uniform float in `[0, 1)`.  Modelled as the
fractional part of an oracle-supplied rational. -/
def randomFrac (q : ℚ) : ℚ := Int.fract q

/-- `string.ascii_lowercase` (line 22 of the source). -/
def ascii_lowercase : List Char := "abcdefghijklmnopqrstuvwxyz".toList

/-- Python `random.choice(letters)`: one element of the list, selected by the
entropy `u`. -/
def choice (letters : List Char) (u : ℕ) : Char :=
  letters.getD (u % letters.length) 'a'

/-- `_get_random_string(length)` (lines 20-23):
`''.join(choice(letters) for i in range(length))` over `ascii_lowercase`.
`ec` supplies the entropy of each `choice` call. -/
def get_random_string (length : ℕ) (ec : ℕ → ℕ) : String :=
  ⟨(List.range length).map fun i => choice ascii_lowercase (ec i)⟩

/-- Entropy consumed by generating one synthetic row: the two `randint`
calls, the `random()` call, the `datetime.now()` reading (abstract), and the
100 `choice` calls of `_get_random_string`. -/
structure RowEntropy where
  e1 : ℕ
  e2 : ℕ
  er : ℚ
  et : ℕ
  ec : ℕ → ℕ

/-- One synthetic row, matching the 5-tuple built at lines 156-163 / 185-193 /
238-244 of the source. The timestamp is abstract. -/
structure Row where
  my_integer : ℤ
  my_smallint : ℤ
  my_decimal : ℚ
  my_timestamp : ℕ
  my_varchar : String

/-- The row generator: `(randint(0, 1e9), randint(0, 1e3), random(),
datetime.now(), _get_random_string(100))`.  Note `1e9`/`1e3` are the integral
floats `10^9`/`10^3` and `randint` includes both endpoints; `random()` is
stored unrounded. -/
def genRow (e : RowEntropy) : Row :=
  { my_integer := randint 0 1000000000 e.e1
  , my_smallint := randint 0 1000 e.e2
  , my_decimal := randomFrac e.er
  , my_timestamp := e.et
  , my_varchar := get_random_string 100 e.ec }

lemma randint_bounds (lo hi : ℤ) (h : lo ≤ hi) (u : ℕ) :
    lo ≤ randint lo hi u ∧ randint lo hi u ≤ hi := by
  unfold randint
  have hpos : (0 : ℤ) < hi - lo + 1 := by omega
  have h1 : 0 ≤ (u : ℤ) % (hi - lo + 1) := Int.emod_nonneg _ (by omega)
  have h2 : (u : ℤ) % (hi - lo + 1) < hi - lo + 1 := Int.emod_lt_of_pos _ hpos
  omega

lemma choice_mem_lowercase (u : ℕ) : choice ascii_lowercase u ∈ ascii_lowercase := by
  have hlen : ascii_lowercase.length = 26 := rfl
  have hlt : u % 26 < 26 := Nat.mod_lt _ (by norm_num)
  unfold choice
  rw [hlen]
  rw [List.getD_eq_getElem _ _ (by rw [hlen]; exact hlt)]
  exact List.getElem_mem _

lemma get_random_string_length (n : ℕ) (ec : ℕ → ℕ) :
    (get_random_string n ec).length = n := by
  show ((List.range n).map fun i => choice ascii_lowercase (ec i)).length = n
  simp

lemma get_random_string_chars (n : ℕ) (ec : ℕ → ℕ) :
    ∀ c ∈ (get_random_string n ec).data, c ∈ ascii_lowercase := by
  intro c hc
  simp only [get_random_string] at hc
  rcases List.mem_map.mp hc with ⟨i, _, hci⟩
  exact hci ▸ choice_mem_lowercase _

/-- `max_nbr_of_tuples = 50000` (line 78): the chunk size of the bulk insert. -/
def max_nbr_of_tuples : ℕ := 50000

/-- The chunking `for x in range(0, len(data), max_nbr_of_tuples)` of
`_execute` (lines 79-81), with the list length as structural fuel (the loop
advances by `max_nbr_of_tuples ≥ 1` per step, so `l.length` steps always
suffice). -/
def chunksOfAux : ℕ → List Row → List (List Row)
  | 0, _ => []
  | _ + 1, [] => []
  | fuel + 1, r :: rs =>
    if (r :: rs).length ≤ max_nbr_of_tuples then [r :: rs]
    else (r :: rs).take max_nbr_of_tuples ::
      chunksOfAux fuel ((r :: rs).drop max_nbr_of_tuples)

/-- The successive slices `data[x:x+max_nbr_of_tuples]` taken by the bulk
chunk loop of `_execute`. -/
def chunksOf (l : List Row) : List (List Row) := chunksOfAux l.length l

/-- One `cursor.execute` call, as recorded in the event trace. -/
inductive StmtTag where
  | dropTable
  | createTable
  | bulkValues (tuples : List Row)
  | bulkEmptyStmt
  | classicInsert (r : Row)
  | copyFrom (rows : List Row)

/-- Observable actions of the `insert` command, in program order. -/
inductive Event where
  | exec (s : StmtTag)
  | createLog (v : ℚ)
  | clampWarn
  | copyParamErr
  | csvWrite (lines : List String)
  | report (wall sqlTime : ℚ)
  | connectErr

/-- One column of the staging table's schema. -/
structure ColumnDef where
  name : String
  declType : String

/-- The `create temp table _rs_benchmarking` schema of `_init_table`
(lines 102-111): the identity column plus the five typed columns. -/
def benchColumns : List ColumnDef :=
  [⟨"id", "bigint identity(0, 1)"⟩,
   ⟨"my_integer", "integer"⟩,
   ⟨"my_smallint", "smallint"⟩,
   ⟨"my_decimal", "decimal(8,2)"⟩,
   ⟨"my_timestamp", "timestamp"⟩,
   ⟨"my_varchar", "varchar(100)"⟩]

/-- The staging table: its schema and its current rows (identity values
elided). -/
structure TableState where
  schema : List ColumnDef
  rows : List Row

/-- Server-side state: the staging table `_rs_benchmarking`, or `none` when
it does not exist. -/
structure DBState where
  table : Option TableState

/-- Client-side run state: the emitted events, the database, the index into
the per-`_execute`-call duration oracle, and the index into the per-row
entropy oracle. -/
structure St where
  events : List Event
  db : DBState
  durIdx : ℕ
  rowIdx : ℕ

/-- Oracles: `dur k` is the `toc - tic` difference of the `k`-th `_execute`
call, `wallBulk`/`wallCopy`/`wallClassic` are the whole-branch `toc - tic`
differences, and `rowE k` is the entropy consumed by the `k`-th generated
row. -/
structure Env where
  dur : ℕ → ℚ
  wallBulk : ℚ
  wallCopy : ℚ
  wallClassic : ℚ
  rowE : ℕ → RowEntropy

/-- Ways an `_execute` call can raise: using the `None` connection handle
(`AttributeError` before any statement runs), or a server-side SQL error. -/
inductive ExecErr where
  | deadConn
  | sqlErr

/-- Result of running (part of) the `insert` command: normal completion,
`sys.exit(code)`, or an unhandled exception. -/
inductive Step where
  | ok (st : St)
  | exited (code : ℕ) (st : St)
  | crashed (e : ExecErr) (st : St)

/-- The events accumulated by a run, whatever its outcome. -/
def eventsOf : Step → List Event
  | .ok st => st.events
  | .exited _ st => st.events
  | .crashed _ st => st.events

/-- Sequencing of the scenario branches: a later branch runs only if the
run is still alive. -/
def stepBind (s : Step) (f : St → Step) : Step :=
  match s with
  | .ok st => f st
  | s => s

/-- The `(sql, data)` argument shapes with which `_execute` is invoked. -/
inductive Call where
  | dropTable
  | createTable
  | bulkInsert (rows : List Row)
  | classicInsert (r : Row)
  | copyFrom (rows : List Row)

/-- Append rows to the staging table if it exists. -/
def tableAppend (db : DBState) (rs : List Row) : DBState :=
  ⟨db.table.map fun t => ⟨t.schema, t.rows ++ rs⟩⟩

/-- The bulk chunk loop inside `_execute` (lines 79-81): one
`cursor.execute` per slice, every slice's tuples inlined into the VALUES
clause. -/
def applyChunks : List (List Row) → St → St
  | [], st => st
  | ch :: cs, st =>
    applyChunks cs
      { st with events := st.events ++ [.exec (.bulkValues ch)],
                db := tableAppend st.db ch }

/-- `_execute(conn, sql, data, auto_commit)` (lines 70-89).  `alive = false`
models `conn = None`: the call raises on `conn.autocommit` before any
statement or timing happens.  Otherwise one duration is consumed
(`tic`/`toc` around the whole call) and the statement(s) run:
a tuple-of-tuples `data` takes the chunked multi-row path, a flat tuple the
parameterized single-row path, and `data = None` (or the empty tuple, which
is falsy) a plain `cursor.execute(sql)`.  Dropping an absent table and
executing the bare `INSERT ... VALUES` prefix (the empty-`data` case) are
server-side errors. -/
def execute (env : Env) (alive : Bool) (st : St) (c : Call) :
    Except (ExecErr × St) (St × ℚ) :=
  cond alive
    (let d := env.dur st.durIdx
     let st1 : St := { st with durIdx := st.durIdx + 1 }
     match c with
     | .dropTable =>
       let st2 : St := { st1 with events := st1.events ++ [.exec .dropTable] }
       match st1.db.table with
       | some _ => .ok ({ st2 with db := ⟨none⟩ }, d)
       | none => .error (.sqlErr, st2)
     | .createTable =>
       let st2 : St := { st1 with events := st1.events ++ [.exec .createTable] }
       .ok ({ st2 with db := ⟨some ⟨benchColumns, []⟩⟩ }, d)
     | .classicInsert r =>
       let st2 : St := { st1 with events := st1.events ++ [.exec (.classicInsert r)] }
       match st1.db.table with
       | some t => .ok ({ st2 with db := ⟨some ⟨t.schema, t.rows ++ [r]⟩⟩ }, d)
       | none => .error (.sqlErr, st2)
     | .copyFrom rows =>
       let st2 : St := { st1 with events := st1.events ++ [.exec (.copyFrom rows)] }
       match st1.db.table with
       | some t => .ok ({ st2 with db := ⟨some ⟨t.schema, t.rows ++ rows⟩⟩ }, d)
       | none => .error (.sqlErr, st2)
     | .bulkInsert rows =>
       match rows with
       | [] =>
         .error (.sqlErr, { st1 with events := st1.events ++ [.exec .bulkEmptyStmt] })
       | _ :: _ =>
         match st1.db.table with
         | some _ => .ok (applyChunks (chunksOf rows) st1, d)
         | none =>
           .error (.sqlErr,
             { st1 with events := st1.events ++ [.exec (.bulkValues (rows.take max_nbr_of_tuples))] }))
    (.error (.deadConn, st))

/-- `_init_table(conn)` (lines 91-113): try to drop the table, swallowing
any exception; then create it; then log
`round(t/1000, 4)` where `t` sums the measured statement times (a failed
drop contributes nothing to `t`). -/
def init_table (env : Env) (alive : Bool) (st : St) : Except (ExecErr × St) St :=
  let p : St × ℚ :=
    match execute env alive st .dropTable with
    | .ok (s, d) => (s, d)
    | .error (_, s) => (s, 0)
  match execute env alive p.1 .createTable with
  | .error e => .error e
  | .ok (s2, d2) =>
    .ok { s2 with events := s2.events ++ [.createLog (pyRound ((p.2 + d2) / 1000) 4)] }

/-- The row-generation loop `for i in range(0, n)` shared by the bulk and
copy branches: the `k`-th row drawn from entropy stream position `start + k`.
-/
def genRows (env : Env) : ℕ → ℕ → List Row
  | _, 0 => []
  | start, k + 1 => genRow (env.rowE start) :: genRows env (start + 1) k

/-- The bulk scenario branch (lines 140-168): recreate the table, generate
`n` rows into a tuple of tuples, run one `_execute`, report
`round(toc - tic, 3)` and `round(sql_time, 3)`. -/
def bulkBranch (env : Env) (alive : Bool) (n : ℕ) (st : St) : Step :=
  match init_table env alive st with
  | .error (e, st1) => .crashed e st1
  | .ok st1 =>
    let rows := genRows env st1.rowIdx n
    let st2 : St := { st1 with rowIdx := st1.rowIdx + n }
    match execute env alive st2 (.bulkInsert rows) with
    | .error (e, st3) => .crashed e st3
    | .ok (st3, d) =>
      .ok { st3 with
            events := st3.events ++ [.report (pyRound env.wallBulk 3) (pyRound d 3)] }

/-- The header line and data lines written by
`df_total.to_csv(output_file, sep=";", index=False)` (line 198). -/
def csvLines (cols : List String) (rows : List Row) : List String :=
  String.intercalate ";" cols ::
    rows.map fun r =>
      String.intercalate ";"
        [toString r.my_integer, toString r.my_smallint, toString r.my_decimal,
         toString r.my_timestamp, r.my_varchar]

/-- The `columns` list of the copy branch (line 177). -/
def copyColumns : List String :=
  ["my_integer", "my_smallint", "my_decimal", "my_timestamp", "my_varchar"]

/-- Python truthiness of a click option value: `None` (not provided) and the
empty string are falsy. -/
def pyTruthy : Option String → Bool
  | none => false
  | some s => !(s == "")

/-- The scenario option's choice values (line 127). -/
inductive Scenario where
  | all
  | classic
  | bulk
  | copy

/-- Arguments of the `insert` subcommand that the claims depend on. -/
structure Args where
  copy_s3_path : Option String
  copy_iam_role : Option String
  nbr_of_records : ℕ
  scenario : Scenario

/-- The copy scenario branch (lines 170-213): if
`not (copy_iam_role and copy_s3_path)`, print the error and `sys.exit(1)`;
otherwise recreate the table, generate `n` rows, write the CSV file, run the
COPY statement, and report. -/
def copyBranch (env : Env) (alive : Bool) (a : Args) (st : St) : Step :=
  cond (pyTruthy a.copy_iam_role && pyTruthy a.copy_s3_path)
    (match init_table env alive st with
     | .error (e, st1) => .crashed e st1
     | .ok st1 =>
       let rows := genRows env st1.rowIdx a.nbr_of_records
       let st2 : St := { st1 with
         rowIdx := st1.rowIdx + a.nbr_of_records,
         events := st1.events ++ [.csvWrite (csvLines copyColumns rows)] }
       match execute env alive st2 (.copyFrom rows) with
       | .error (e, st3) => .crashed e st3
       | .ok (st3, d) =>
         .ok { st3 with
               events := st3.events ++ [.report (pyRound env.wallCopy 3) (pyRound d 3)] })
    (.exited 1 { st with events := st.events ++ [.copyParamErr] })

/-- The classic per-row insert loop, `for _ in range(1, nbr_of_records)`
(lines 237-245): `k` iterations, each generating one row and running one
parameterized `_execute`, accumulating `sql_time`. -/
def classicLoop (env : Env) (alive : Bool) : ℕ → St → ℚ → Except (ExecErr × St) (St × ℚ)
  | 0, st, acc => .ok (st, acc)
  | k + 1, st, acc =>
    let r := genRow (env.rowE st.rowIdx)
    let st1 : St := { st with rowIdx := st.rowIdx + 1 }
    match execute env alive st1 (.classicInsert r) with
    | .error e => .error e
    | .ok (st2, d) => classicLoop env alive k st2 (acc + d)

/-- The classic scenario branch (lines 215-247): clamp the record count to
`max_records = 100` with a warning, recreate the table, run the loop — note
the loop is `range(1, nbr_of_records)`, i.e. `nbr_of_records - 1`
iterations — and report. -/
def classicBranch (env : Env) (alive : Bool) (n : ℕ) (st : St) : Step :=
  let n' := if 100 < n then 100 else n
  let st0 : St := if 100 < n then { st with events := st.events ++ [.clampWarn] } else st
  match init_table env alive st0 with
  | .error (e, st1) => .crashed e st1
  | .ok st1 =>
    match classicLoop env alive (n' - 1) st1 0 with
    | .error (e, st2) => .crashed e st2
    | .ok (st2, sqlSum) =>
      .ok { st2 with
            events := st2.events ++ [.report (pyRound env.wallClassic 3) (pyRound sqlSum 3)] }

/-- `scenario in ['bulk', 'all']` (line 140). -/
def runsBulk : Scenario → Bool
  | .bulk => true
  | .all => true
  | _ => false

/-- `scenario in ['copy', 'all']` (line 170). -/
def runsCopy : Scenario → Bool
  | .copy => true
  | .all => true
  | _ => false

/-- `scenario in ['classic', 'all']` (line 215). -/
def runsClassic : Scenario → Bool
  | .classic => true
  | .all => true
  | _ => false

/-- `_connect_redshift` (lines 46-68): on success a connection handle, on
any exception `logger.error(...)` and `return None` — no exception
propagates to the caller. -/
def connect_redshift (attempt : Except String Unit) : Option Unit × List Event :=
  match attempt with
  | .ok u => (some u, [])
  | .error _ => (none, [.connectErr])

/-- The `insert` command (lines 129-247): connect (continuing whatever the
result), then run the bulk, copy and classic branches in that textual order,
each guarded by its scenario test. -/
def insert (env : Env) (co : Except String Unit) (a : Args) : Step :=
  let c := connect_redshift co
  let stInit : St := ⟨c.2, ⟨none⟩, 0, 0⟩
  let s1 := cond (runsBulk a.scenario)
    (stepBind (.ok stInit) (bulkBranch env c.1.isSome a.nbr_of_records)) (.ok stInit)
  let s2 := cond (runsCopy a.scenario)
    (stepBind s1 (copyBranch env c.1.isSome a)) s1
  cond (runsClassic a.scenario)
    (stepBind s2 (classicBranch env c.1.isSome a.nbr_of_records)) s2

/-- Recognizer: any `cursor.execute` call. -/
def isExecEvent : Event → Bool
  | .exec _ => true
  | _ => false

/-- Number of SQL statements submitted to the server. -/
def execCount (evs : List Event) : ℕ := evs.countP isExecEvent

/-- Recognizer: a parameterized single-row (classic) INSERT. -/
def isClassicExec : Event → Bool
  | .exec (.classicInsert _) => true
  | _ => false

/-- Number of classic INSERT statements. -/
def classicCount (evs : List Event) : ℕ := evs.countP isClassicExec

/-- Recognizer: a statement issued by the bulk insert phase (a chunked
multi-row VALUES statement, or the bare prefix statement of the
empty-data case). -/
def isBulkStmt : Event → Bool
  | .exec (.bulkValues _) => true
  | .exec .bulkEmptyStmt => true
  | _ => false

/-- Number of statements issued by the bulk insert phase. -/
def bulkStmtCount (evs : List Event) : ℕ := evs.countP isBulkStmt

/-- Recognizer: a multi-row VALUES statement carrying more than
`max_nbr_of_tuples` tuples. -/
def isOversized : Event → Bool
  | .exec (.bulkValues ch) => decide (max_nbr_of_tuples < ch.length)
  | _ => false

/-- Number of bulk VALUES statements exceeding the chunk bound. -/
def oversizedCount (evs : List Event) : ℕ := evs.countP isOversized

/-- Recognizer: the CREATE TABLE statement. -/
def isCreateExec : Event → Bool
  | .exec .createTable => true
  | _ => false

/-- Number of CREATE TABLE statements, i.e. of completed `_init_table`
runs. -/
def createCount (evs : List Event) : ℕ := evs.countP isCreateExec

/-- Recognizer: the classic clamp warning. -/
def isClampWarn : Event → Bool
  | .clampWarn => true
  | _ => false

/-- Number of clamp warnings. -/
def warnCount (evs : List Event) : ℕ := evs.countP isClampWarn

/-- Recognizer: the missing-copy-parameters error message. -/
def isParamErr : Event → Bool
  | .copyParamErr => true
  | _ => false

/-- Number of missing-copy-parameters error messages. -/
def paramErrCount (evs : List Event) : ℕ := evs.countP isParamErr

/-- The CSV files written during the run (their lines). -/
def csvPayloads (evs : List Event) : List (List String) :=
  evs.filterMap fun e => match e with | .csvWrite ls => some ls | _ => none

/-- The values printed by the create-table log lines, in order. -/
def createLogs (evs : List Event) : List ℚ :=
  evs.filterMap fun e => match e with | .createLog v => some v | _ => none

/-- The (wall, sql) value pairs printed by the scenario report lines, in
order. -/
def reports (evs : List Event) : List (ℚ × ℚ) :=
  evs.filterMap fun e => match e with | .report w s => some (w, s) | _ => none

/-- Row count of the staging table, when it exists. -/
def tableRows (db : DBState) : Option ℕ :=
  match db.table with
  | some t => some t.rows.length
  | none => none

/-- A concrete environment for witnesses: zero durations and zero entropy. -/
def defaultEnv : Env := ⟨fun _ => 0, 0, 0, 0, fun _ => ⟨0, 0, 0, 0, fun _ => 0⟩⟩

/-- The client state at entry of the scenario branches when the connection
succeeded. -/
def st0 : St := ⟨[], ⟨none⟩, 0, 0⟩

lemma genRows_length (env : Env) (start n : ℕ) : (genRows env start n).length = n := by
  induction n generalizing start with
  | zero => rfl
  | succ k ih => simp [genRows, ih]

lemma chunksOfAux_small (fuel : ℕ) (l : List Row) (h0 : l ≠ [])
    (h : l.length ≤ max_nbr_of_tuples) (hf : 1 ≤ fuel) :
    chunksOfAux fuel l = [l] := by
  cases fuel with
  | zero => omega
  | succ f =>
    cases l with
    | nil => exact absurd rfl h0
    | cons r rs => rw [chunksOfAux, if_pos h]

lemma chunksOfAux_large (fuel : ℕ) (l : List Row)
    (h : max_nbr_of_tuples < l.length) (hf : 1 ≤ fuel) :
    chunksOfAux fuel l =
      l.take max_nbr_of_tuples :: chunksOfAux (fuel - 1) (l.drop max_nbr_of_tuples) := by
  cases fuel with
  | zero => omega
  | succ f =>
    cases l with
    | nil => simp at h
    | cons r rs =>
      rw [chunksOfAux]
      simp only [Nat.not_le.mpr h, if_false, Nat.add_sub_cancel]

lemma chunksOfAux_fuel (fuel fuel' : ℕ) (l : List Row)
    (h : l.length ≤ fuel) (h' : l.length ≤ fuel') :
    chunksOfAux fuel l = chunksOfAux fuel' l := by
  induction fuel using Nat.strong_induction_on generalizing fuel' l with
  | _ fuel ih =>
    cases l with
    | nil =>
      cases fuel <;> cases fuel' <;> rfl
    | cons r rs =>
      have h1 : 1 ≤ fuel := by simp at h; omega
      have h1' : 1 ≤ fuel' := by simp at h'; omega
      by_cases hs : (r :: rs).length ≤ max_nbr_of_tuples
      · rw [chunksOfAux_small _ _ (by simp) hs h1, chunksOfAux_small _ _ (by simp) hs h1']
      · push_neg at hs
        rw [chunksOfAux_large _ _ hs h1, chunksOfAux_large _ _ hs h1']
        have hd : ((r :: rs).drop max_nbr_of_tuples).length ≤ fuel - 1 := by
          simp [max_nbr_of_tuples] at h hs ⊢
          omega
        have hd' : ((r :: rs).drop max_nbr_of_tuples).length ≤ fuel' - 1 := by
          simp [max_nbr_of_tuples] at h' hs ⊢
          omega
        have hlt : fuel - 1 < fuel := by omega
        exact congrArg _ (ih (fuel - 1) hlt (fuel' - 1) _ hd hd')

lemma chunksOf_small (l : List Row) (h0 : l ≠ []) (h : l.length ≤ max_nbr_of_tuples) :
    chunksOf l = [l] := by
  have h1 : 1 ≤ l.length := by
    cases l with
    | nil => exact absurd rfl h0
    | cons r rs => simp
  exact chunksOfAux_small _ _ h0 h h1

lemma chunksOf_large (l : List Row) (h : max_nbr_of_tuples < l.length) :
    chunksOf l = l.take max_nbr_of_tuples :: chunksOf (l.drop max_nbr_of_tuples) := by
  unfold chunksOf
  rw [chunksOfAux_large _ _ h (by omega)]
  exact congrArg _ (chunksOfAux_fuel _ _ _ (by simp [max_nbr_of_tuples]; omega) le_rfl)

lemma chunksOf_length (l : List Row) :
    (chunksOf l).length = (l.length + 49999) / 50000 := by
  generalize hn : l.length = n
  induction n using Nat.strong_induction_on generalizing l with
  | _ n ih =>
    cases l with
    | nil =>
      simp at hn
      subst hn
      rfl
    | cons r rs =>
      by_cases hs : (r :: rs).length ≤ max_nbr_of_tuples
      · rw [chunksOf_small _ (by simp) hs]
        simp only [List.length_cons, max_nbr_of_tuples] at hn hs
        simp only [List.length_singleton]
        omega
      · push_neg at hs
        rw [chunksOf_large _ hs]
        simp only [List.length_cons, max_nbr_of_tuples] at hn hs ⊢
        have hdn : ((r :: rs).drop 50000).length = n - 50000 := by
          simp
          omega
        have hrec := ih (n - 50000) (by omega) _ hdn
        rw [hrec]
        omega

lemma chunksOf_flatten (l : List Row) : (chunksOf l).flatten = l := by
  generalize hn : l.length = n
  induction n using Nat.strong_induction_on generalizing l with
  | _ n ih =>
    cases l with
    | nil => rfl
    | cons r rs =>
      by_cases hs : (r :: rs).length ≤ max_nbr_of_tuples
      · rw [chunksOf_small _ (by simp) hs]
        simp
      · push_neg at hs
        rw [chunksOf_large _ hs]
        have hdn : ((r :: rs).drop max_nbr_of_tuples).length = n - max_nbr_of_tuples := by
          simp [hn]
        have hrec := ih (n - max_nbr_of_tuples)
          (by simp only [List.length_cons] at hn; simp [max_nbr_of_tuples] at hs ⊢; omega)
          _ hdn
        simp [hrec]

lemma chunksOf_sizes (l : List Row) :
    ∀ ch ∈ chunksOf l, ch.length ≤ max_nbr_of_tuples := by
  generalize hn : l.length = n
  induction n using Nat.strong_induction_on generalizing l with
  | _ n ih =>
    cases l with
    | nil => intro ch hch; simp [chunksOf, chunksOfAux] at hch
    | cons r rs =>
      by_cases hs : (r :: rs).length ≤ max_nbr_of_tuples
      · rw [chunksOf_small _ (by simp) hs]
        intro ch hch
        simp at hch
        exact hch ▸ hs
      · push_neg at hs
        rw [chunksOf_large _ hs]
        intro ch hch
        rcases List.mem_cons.mp hch with h | h
        · subst h
          simp
        · have hdn : ((r :: rs).drop max_nbr_of_tuples).length = n - max_nbr_of_tuples := by
            simp [hn]
          exact ih (n - max_nbr_of_tuples)
            (by simp only [List.length_cons] at hn; simp [max_nbr_of_tuples] at hs ⊢; omega)
            _ hdn ch h

lemma applyChunks_spec (cs : List (List Row)) (st : St) :
    applyChunks cs st =
      { st with events := st.events ++ cs.map fun ch => .exec (.bulkValues ch),
                db := ⟨st.db.table.map fun t => ⟨t.schema, t.rows ++ cs.flatten⟩⟩ } := by
  induction cs generalizing st with
  | nil =>
    show st = _
    rcases st with ⟨evs, ⟨tbl⟩, di, ri⟩
    cases tbl <;> simp
  | cons ch cs ih =>
    show applyChunks cs _ = _
    rw [ih]
    rcases st with ⟨evs, ⟨tbl⟩, di, ri⟩
    cases tbl <;> simp [tableAppend]

lemma init_table_spec (env : Env) (st : St) :
    ∃ v, init_table env true st =
      .ok { st with
            events := st.events ++ [.exec .dropTable, .exec .createTable, .createLog v],
            db := ⟨some ⟨benchColumns, []⟩⟩,
            durIdx := st.durIdx + 2 } := by
  rcases st with ⟨evs, ⟨tbl⟩, di, ri⟩
  cases tbl with
  | none =>
    refine ⟨pyRound ((0 + env.dur (di + 1)) / 1000) 4, ?_⟩
    simp [init_table, execute]
  | some t =>
    refine ⟨pyRound ((env.dur di + env.dur (di + 1)) / 1000) 4, ?_⟩
    simp [init_table, execute]

lemma genRows_cons (env : Env) (start k : ℕ) :
    genRows env start (k + 1) = genRow (env.rowE start) :: genRows env (start + 1) k := rfl

lemma classicLoop_spec (env : Env) (k : ℕ) :
    ∀ (st : St) (t : TableState) (acc : ℚ), st.db.table = some t →
      ∃ s, classicLoop env true k st acc =
        .ok ({ st with
               events := st.events ++
                 (genRows env st.rowIdx k).map fun r => .exec (.classicInsert r),
               db := ⟨some ⟨t.schema, t.rows ++ genRows env st.rowIdx k⟩⟩,
               durIdx := st.durIdx + k,
               rowIdx := st.rowIdx + k }, s) := by
  induction k with
  | zero =>
    intro st t acc ht
    refine ⟨acc, ?_⟩
    rcases st with ⟨evs, ⟨tbl⟩, di, ri⟩
    simp at ht
    simp [classicLoop, genRows, ht]
  | succ k ih =>
    intro st t acc ht
    rcases st with ⟨evs, ⟨tbl⟩, di, ri⟩
    simp at ht
    subst ht
    have step : classicLoop env true (k + 1) ⟨evs, ⟨some t⟩, di, ri⟩ acc =
        classicLoop env true k
          ⟨evs ++ [.exec (.classicInsert (genRow (env.rowE ri)))],
           ⟨some ⟨t.schema, t.rows ++ [genRow (env.rowE ri)]⟩⟩, di + 1, ri + 1⟩
          (acc + env.dur di) := by
      simp [classicLoop, execute]
    rcases ih ⟨evs ++ [.exec (.classicInsert (genRow (env.rowE ri)))],
        ⟨some ⟨t.schema, t.rows ++ [genRow (env.rowE ri)]⟩⟩, di + 1, ri + 1⟩
        ⟨t.schema, t.rows ++ [genRow (env.rowE ri)]⟩ (acc + env.dur di) rfl with ⟨s, hs⟩
    refine ⟨s, ?_⟩
    rw [step, hs]
    simp only [genRows_cons]
    simp [Nat.add_comm, Nat.add_assoc, Nat.add_left_comm]

lemma bulkBranch_spec (env : Env) (n : ℕ) (hn : 1 ≤ n) (st : St) :
    ∃ v d, bulkBranch env true n st =
      .ok { st with
            events := st.events ++ ([.exec .dropTable, .exec .createTable, .createLog v]
              ++ ((chunksOf (genRows env st.rowIdx n)).map fun ch => .exec (.bulkValues ch))
              ++ [.report (pyRound env.wallBulk 3) (pyRound d 3)]),
            db := ⟨some ⟨benchColumns, genRows env st.rowIdx n⟩⟩,
            durIdx := st.durIdx + 3,
            rowIdx := st.rowIdx + n } := by
  rcases init_table_spec env st with ⟨v, hinit⟩
  refine ⟨v, env.dur (st.durIdx + 2), ?_⟩
  unfold bulkBranch
  rw [hinit]
  rcases n with _ | k
  · omega
  · simp only [genRows_cons]
    simp only [execute, cond_true, applyChunks_spec]
    rw [← genRows_cons]
    simp [chunksOf_flatten, List.append_assoc]

lemma bulkBranch_zero (env : Env) (st : St) :
    ∃ v, bulkBranch env true 0 st =
      .crashed .sqlErr
        { st with
          events := st.events ++ [.exec .dropTable, .exec .createTable, .createLog v,
            .exec .bulkEmptyStmt],
          db := ⟨some ⟨benchColumns, []⟩⟩,
          durIdx := st.durIdx + 3 } := by
  rcases init_table_spec env st with ⟨v, hinit⟩
  refine ⟨v, ?_⟩
  unfold bulkBranch
  rw [hinit]
  simp [genRows, execute]

lemma copyBranch_spec (env : Env) (a : Args) (st : St)
    (hr : pyTruthy a.copy_iam_role = true) (hp : pyTruthy a.copy_s3_path = true) :
    ∃ v d, copyBranch env true a st =
      .ok { st with
            events := st.events ++ [.exec .dropTable, .exec .createTable, .createLog v,
              .csvWrite (csvLines copyColumns (genRows env st.rowIdx a.nbr_of_records)),
              .exec (.copyFrom (genRows env st.rowIdx a.nbr_of_records)),
              .report (pyRound env.wallCopy 3) (pyRound d 3)],
            db := ⟨some ⟨benchColumns, genRows env st.rowIdx a.nbr_of_records⟩⟩,
            durIdx := st.durIdx + 3,
            rowIdx := st.rowIdx + a.nbr_of_records } := by
  rcases init_table_spec env st with ⟨v, hinit⟩
  refine ⟨v, env.dur (st.durIdx + 2), ?_⟩
  unfold copyBranch
  rw [hr, hp, hinit]
  simp [execute]

lemma copyBranch_missing (env : Env) (alive : Bool) (a : Args) (st : St)
    (h : (pyTruthy a.copy_iam_role && pyTruthy a.copy_s3_path) = false) :
    copyBranch env alive a st =
      .exited 1 { st with events := st.events ++ [.copyParamErr] } := by
  unfold copyBranch
  rw [h]
  rfl

lemma classicBranch_spec (env : Env) (n : ℕ) (st : St) :
    ∃ v s, classicBranch env true n st =
      .ok { st with
            events := st.events ++ ((if 100 < n then [.clampWarn] else [])
              ++ [.exec .dropTable, .exec .createTable, .createLog v]
              ++ ((genRows env st.rowIdx ((if 100 < n then 100 else n) - 1)).map
                    fun r => .exec (.classicInsert r))
              ++ [.report (pyRound env.wallClassic 3) (pyRound s 3)]),
            db := ⟨some ⟨benchColumns, genRows env st.rowIdx ((if 100 < n then 100 else n) - 1)⟩⟩,
            durIdx := st.durIdx + 2 + ((if 100 < n then 100 else n) - 1),
            rowIdx := st.rowIdx + ((if 100 < n then 100 else n) - 1) } := by
  by_cases hn : 100 < n
  · rcases init_table_spec env { st with events := st.events ++ [.clampWarn] } with ⟨v, hinit⟩
    rcases classicLoop_spec env 99
        { st with
          events := (st.events ++ [.clampWarn]) ++
            [.exec .dropTable, .exec .createTable, .createLog v],
          db := ⟨some ⟨benchColumns, []⟩⟩,
          durIdx := st.durIdx + 2 }
        ⟨benchColumns, []⟩ 0 rfl with ⟨s, hloop⟩
    refine ⟨v, s, ?_⟩
    unfold classicBranch
    simp only [if_pos hn]
    rw [hinit]
    have h99 : (100 : ℕ) - 1 = 99 := rfl
    rw [h99]
    simp only [hloop]
    simp [hn, List.append_assoc, Nat.add_assoc]
  · rcases init_table_spec env st with ⟨v, hinit⟩
    rcases classicLoop_spec env (n - 1)
        { st with
          events := st.events ++ [.exec .dropTable, .exec .createTable, .createLog v],
          db := ⟨some ⟨benchColumns, []⟩⟩,
          durIdx := st.durIdx + 2 }
        ⟨benchColumns, []⟩ 0 rfl with ⟨s, hloop⟩
    refine ⟨v, s, ?_⟩
    unfold classicBranch
    simp only [if_neg hn]
    rw [hinit]
    simp only [hloop]
    simp [hn, List.append_assoc, Nat.add_assoc]

lemma insert_bulk (env : Env) (p r : Option String) (n : ℕ) :
    insert env (.ok ()) ⟨p, r, n, .bulk⟩ = bulkBranch env true n st0 := rfl

lemma insert_classic (env : Env) (p r : Option String) (n : ℕ) :
    insert env (.ok ()) ⟨p, r, n, .classic⟩ = classicBranch env true n st0 := rfl

lemma insert_copy (env : Env) (co : Except String Unit) (p r : Option String) (n : ℕ) :
    insert env co ⟨p, r, n, .copy⟩ =
      copyBranch env (connect_redshift co).1.isSome ⟨p, r, n, .copy⟩
        ⟨(connect_redshift co).2, ⟨none⟩, 0, 0⟩ := rfl

lemma insert_all (env : Env) (p r : Option String) (n : ℕ) :
    insert env (.ok ()) ⟨p, r, n, .all⟩ =
      stepBind (stepBind (bulkBranch env true n st0) (copyBranch env true ⟨p, r, n, .all⟩))
        (classicBranch env true n) := rfl

lemma countP_map_true {α : Type} (p : Event → Bool) (f : α → Event) (l : List α)
    (h : ∀ a, p (f a) = true) : (l.map f).countP p = l.length := by
  induction l with
  | nil => rfl
  | cons a l ih => simp [List.countP_cons, h, ih]

lemma countP_map_false {α : Type} (p : Event → Bool) (f : α → Event) (l : List α)
    (h : ∀ a ∈ l, p (f a) = false) : (l.map f).countP p = 0 := by
  induction l with
  | nil => rfl
  | cons a l ih =>
    simp [List.countP_cons, h a (List.mem_cons_self a l),
      ih fun b hb => h b (List.mem_cons_of_mem _ hb)]

lemma chunksOf_singleton (r : Row) : chunksOf [r] = [[r]] := by
  rw [chunksOf_small] <;> simp [max_nbr_of_tuples]

/-- C5 (counterexample): the claim puts the integer field in the half-open
range `[0, 10^9)`, but `random.randint(0, 1e9)` includes BOTH endpoints, so
the entropy that selects the top value yields a row whose integer field is
exactly `10^9`. -/
theorem row_generator_range_counterexample :
    (genRow ⟨1000000000, 0, 0, 0, fun _ => 0⟩).my_integer = 1000000000 ∧
    ¬ (genRow ⟨1000000000, 0, 0, 0, fun _ => 0⟩).my_integer < 1000000000 := by
  have h : (genRow ⟨1000000000, 0, 0, 0, fun _ => 0⟩).my_integer = 1000000000 := by
    show randint 0 1000000000 1000000000 = 1000000000
    unfold randint
    decide
  exact ⟨h, by rw [h]; omega⟩

/-- C5 (amended): every synthetic row has its integer field in the CLOSED
range `[0, 10^9]`, its small-integer field in the CLOSED range `[0, 10^3]`
(Python `randint` bounds are inclusive), its decimal field a uniform random
value in `[0, 1)` stored unrounded (rounding to scale 2 happens only in the
database column, not in the generator), and its string field a 100-character
lowercase string. -/
theorem row_generator_ranges (e : RowEntropy) :
    0 ≤ (genRow e).my_integer ∧ (genRow e).my_integer ≤ 1000000000 ∧
    0 ≤ (genRow e).my_smallint ∧ (genRow e).my_smallint ≤ 1000 ∧
    0 ≤ (genRow e).my_decimal ∧ (genRow e).my_decimal < 1 ∧
    (genRow e).my_varchar.length = 100 ∧
    ∀ c ∈ (genRow e).my_varchar.data, c ∈ ascii_lowercase := by
  rcases randint_bounds 0 1000000000 (by omega) e.e1 with ⟨h1, h2⟩
  rcases randint_bounds 0 1000 (by omega) e.e2 with ⟨h3, h4⟩
  exact ⟨h1, h2, h3, h4, Int.fract_nonneg _, Int.fract_lt_one _,
    get_random_string_length _ _, get_random_string_chars _ _⟩

/-- C3 (amended): for every record count `n ≥ 1` the bulk strategy issues
exactly `⌈n / 50000⌉ = (n + 49999) / 50000` multi-row INSERT statements,
none of them carrying more than 50000 inlined tuples, and leaves the staging
table with exactly `n` rows.  (For `n = 0` see the counterexample: one
malformed statement is issued instead of zero.) -/
theorem bulk_chunked_statements (env : Env) (n : ℕ) (hn : 1 ≤ n) :
    ∃ st, insert env (.ok ()) ⟨none, none, n, .bulk⟩ = .ok st ∧
      bulkStmtCount st.events = (n + 49999) / 50000 ∧
      oversizedCount st.events = 0 ∧
      execCount st.events = 2 + (n + 49999) / 50000 ∧
      tableRows st.db = some n := by
  rcases bulkBranch_spec env n hn st0 with ⟨v, d, hb⟩
  rw [insert_bulk, hb]
  refine ⟨_, rfl, ?_, ?_, ?_, ?_⟩
  · show bulkStmtCount ([] ++ _) = _
    rw [List.nil_append]
    simp only [bulkStmtCount, List.countP_append, List.countP_cons, List.countP_nil]
    rw [countP_map_true _ _ _ fun ch => rfl]
    simp [isBulkStmt, chunksOf_length, genRows_length]
  · show oversizedCount ([] ++ _) = _
    rw [List.nil_append]
    simp only [oversizedCount, List.countP_append, List.countP_cons, List.countP_nil]
    rw [countP_map_false _ _ _ ?hsz]
    · simp [isOversized]
    case hsz =>
      intro ch hch
      have := chunksOf_sizes _ ch hch
      simp [isOversized]
      omega
  · show execCount ([] ++ _) = _
    rw [List.nil_append]
    simp only [execCount, List.countP_append, List.countP_cons, List.countP_nil]
    rw [countP_map_true _ _ _ fun ch => rfl]
    simp [isExecEvent, chunksOf_length, genRows_length]
  · simp [tableRows, genRows_length]

/-- C3 (witness): the amended bulk-statement theorem applied at `n = 3`. -/
theorem bulk_chunked_statements_witness :
    1 ≤ 3 ∧
    ∃ st, insert defaultEnv (.ok ()) ⟨none, none, 3, .bulk⟩ = .ok st ∧
      bulkStmtCount st.events = (3 + 49999) / 50000 ∧
      oversizedCount st.events = 0 ∧
      execCount st.events = 2 + (3 + 49999) / 50000 ∧
      tableRows st.db = some 3 :=
  ⟨by omega, bulk_chunked_statements defaultEnv 3 (by omega)⟩

/-- C3 (counterexample): at the requested record count `n = 0` the bulk
branch issues one statement — the bare `INSERT ... VALUES` prefix, because
the empty data tuple is falsy — where the claim's `⌈0 / 50000⌉ = 0` demands
zero statements; the lone statement is syntactically invalid and crashes the
run. -/
theorem bulk_zero_records_counterexample :
    ∃ st, insert defaultEnv (.ok ()) ⟨none, none, 0, .bulk⟩ = .crashed .sqlErr st ∧
      bulkStmtCount st.events = 1 ∧
      (0 + 49999) / 50000 = 0 ∧
      ¬ bulkStmtCount st.events = (0 + 49999) / 50000 := by
  rcases bulkBranch_zero defaultEnv st0 with ⟨v, hb⟩
  rw [insert_bulk, hb]
  refine ⟨_, rfl, ?_, by omega, ?_⟩
  · rfl
  · show ¬ bulkStmtCount ((st0.events ++ _)) = _
    rw [show bulkStmtCount (st0.events ++
      [.exec .dropTable, .exec .createTable, .createLog v, .exec .bulkEmptyStmt]) = 1 from rfl]
    omega

/-- C1 (code bug, evaluated at the failing input): with `-s classic -n 5`
the classic loop `for _ in range(1, nbr_of_records)` runs only 4 times, so 4
parameterized INSERT statements execute and the staging table ends with 4
rows, not the 5 that the claim (and the program's own
`Classic insert for 5 records` output line) states. -/
theorem classic_loop_off_by_one :
    ∃ st, insert defaultEnv (.ok ()) ⟨none, none, 5, .classic⟩ = .ok st ∧
      classicCount st.events = 4 ∧
      tableRows st.db = some 4 ∧
      ¬ classicCount st.events = 5 := by
  rcases classicBranch_spec defaultEnv 5 st0 with ⟨v, s, hc⟩
  rw [insert_classic, hc]
  refine ⟨_, rfl, rfl, rfl, fun h => ?_⟩
  have h' : (4 : ℕ) = 5 := h
  omega

/-- C2 (code bug, evaluated at the failing input): with `-s classic -n 101`
the count is clamped to 100 and the warning is emitted, but the loop
`range(1, 100)` then runs only 99 times, so 99 rows are inserted, not the
100 the claim states. -/
theorem classic_clamp_inserts_99 :
    ∃ st, insert defaultEnv (.ok ()) ⟨none, none, 101, .classic⟩ = .ok st ∧
      warnCount st.events = 1 ∧
      classicCount st.events = 99 ∧
      tableRows st.db = some 99 ∧
      ¬ tableRows st.db = some 100 := by
  rcases classicBranch_spec defaultEnv 101 st0 with ⟨v, s, hc⟩
  rw [insert_classic, hc]
  refine ⟨_, rfl, rfl, rfl, rfl, fun h => ?_⟩
  have h' : some (99 : ℕ) = some 100 := h
  simp at h'

/-- C4: whenever the scenario selector is `copy` and the storage path or the
IAM role option is missing, the command prints the error message, exits with
code 1, and has executed zero SQL statements (whatever the connection
outcome and record count). -/
theorem copy_missing_params_exits (env : Env) (co : Except String Unit) (n : ℕ)
    (p r : Option String) (h : p = none ∨ r = none) :
    ∃ st, insert env co ⟨p, r, n, .copy⟩ = .exited 1 st ∧
      execCount st.events = 0 ∧ paramErrCount st.events = 1 := by
  rw [insert_copy]
  have hfalse : (pyTruthy r && pyTruthy p) = false := by
    rcases h with h | h <;> subst h <;> simp [pyTruthy]
  rw [copyBranch_missing _ _ _ _ hfalse]
  refine ⟨_, rfl, ?_, ?_⟩ <;>
    rcases co with _ | m <;> rfl

/-- C4 (witness): the missing-parameter theorem applied with the path absent
and the role present. -/
theorem copy_missing_params_exits_witness :
    ((none : Option String) = none ∨ (some "myrole" : Option String) = none) ∧
    ∃ st, insert defaultEnv (.ok ()) ⟨none, some "myrole", 5, .copy⟩ = .exited 1 st ∧
      execCount st.events = 0 ∧ paramErrCount st.events = 1 :=
  ⟨Or.inl rfl, copy_missing_params_exits defaultEnv (.ok ()) 5 none (some "myrole") (Or.inl rfl)⟩

/-- C6: for every record count `n`, the copy scenario writes exactly one CSV
file, whose lines are one header line naming the five columns
`my_integer;my_smallint;my_decimal;my_timestamp;my_varchar` followed by one
line per generated row — `n + 1` lines in total. -/
theorem copy_csv_file_lines (env : Env) (n : ℕ) :
    ∃ st, insert env (.ok ())
        ⟨some "s3://bucket/path", some "arn:aws:iam::role", n, .copy⟩ = .ok st ∧
      csvPayloads st.events = [csvLines copyColumns (genRows env 0 n)] ∧
      (csvLines copyColumns (genRows env 0 n)).length = n + 1 ∧
      (csvLines copyColumns (genRows env 0 n)).head? =
        some "my_integer;my_smallint;my_decimal;my_timestamp;my_varchar" := by
  rcases copyBranch_spec env ⟨some "s3://bucket/path", some "arn:aws:iam::role", n, .copy⟩
      st0 rfl rfl with ⟨v, d, hc⟩
  rw [insert_copy]
  rw [show ((connect_redshift (.ok ())).1.isSome) = true from rfl]
  rw [show ((connect_redshift (.ok ())).2 : List Event) = [] from rfl]
  rw [show (⟨[], ⟨none⟩, 0, 0⟩ : St) = st0 from rfl]
  rw [hc]
  refine ⟨_, rfl, ?_, ?_, rfl⟩
  · rfl
  · simp [csvLines, genRows_length]

/-- C8: on connection failure, `_connect_redshift` logs the error and
returns `None` instead of raising, and the run continues with that unusable
handle: with the copy scenario and missing parameters it still reaches the
parameter check and exits with code 1, and with the bulk scenario it
proceeds until the first use of the dead handle, which crashes the run
before any SQL statement executes. -/
theorem connect_failure_continues (msg : String) (env : Env) (n : ℕ) :
    connect_redshift (.error msg) = (none, [.connectErr]) ∧
    (∃ st, insert env (.error msg) ⟨none, none, n, .copy⟩ = .exited 1 st ∧
       st.events = [.connectErr, .copyParamErr]) ∧
    (∃ st, insert env (.error msg) ⟨none, none, n, .bulk⟩ = .crashed .deadConn st ∧
       execCount st.events = 0 ∧ st.events = [.connectErr]) := by
  refine ⟨rfl, ⟨⟨[.connectErr, .copyParamErr], ⟨none⟩, 0, 0⟩, ?_, rfl⟩,
    ⟨⟨[.connectErr], ⟨none⟩, 0, 0⟩, rfl, rfl, rfl⟩⟩
  rw [insert_copy]
  rw [copyBranch_missing _ _ _ _ (by simp [pyTruthy])]
  rfl

lemma bulkBranch_events (env : Env) (n : ℕ) (hn : 1 ≤ n) (st : St) :
    ∃ st', bulkBranch env true n st = .ok st' ∧
      st'.db = ⟨some ⟨benchColumns, genRows env st.rowIdx n⟩⟩ ∧
      ∃ e, st'.events = st.events ++ e ∧ createCount e = 1 ∧ 1 ≤ execCount e := by
  rcases bulkBranch_spec env n hn st with ⟨v, d, hb⟩
  refine ⟨_, hb, rfl, _, rfl, ?_, ?_⟩
  · simp only [createCount, List.countP_append, List.countP_cons, List.countP_nil]
    rw [countP_map_false _ _ _ fun ch _ => rfl]
    simp [isCreateExec]
  · simp only [execCount, List.countP_append, List.countP_cons, List.countP_nil]
    rw [countP_map_true _ _ _ fun ch => rfl]
    simp [isExecEvent]
    omega

lemma copyBranch_events (env : Env) (a : Args) (st : St)
    (hr : pyTruthy a.copy_iam_role = true) (hp : pyTruthy a.copy_s3_path = true) :
    ∃ st', copyBranch env true a st = .ok st' ∧
      ∃ e, st'.events = st.events ++ e ∧ createCount e = 1 := by
  rcases copyBranch_spec env a st hr hp with ⟨v, d, hc⟩
  exact ⟨_, hc, _, rfl,
    by simp [createCount, List.countP_cons, List.countP_nil, isCreateExec]⟩

lemma classicBranch_events (env : Env) (n : ℕ) (st : St) :
    ∃ st', classicBranch env true n st = .ok st' ∧
      ∃ e, st'.events = st.events ++ e ∧ createCount e = 1 := by
  rcases classicBranch_spec env n st with ⟨v, s, hc⟩
  refine ⟨_, hc, _, rfl, ?_⟩
  simp only [createCount, List.countP_append, List.countP_cons, List.countP_nil]
  rw [countP_map_false _ _ _ fun r _ => rfl]
  by_cases h : 100 < n <;> simp [h, isCreateExec]

/-- C7: `_init_table` always first attempts the drop (also when the table is
absent, in which case the failure is swallowed), then creates the staging
table, leaving it existing, empty, and with exactly the fixed five typed
columns plus the identity column — whatever the prior database state; and
one initialization runs per executed scenario: one for `bulk`, one for
`classic`, one for `copy` (with its parameters present), and three for
`all`. -/
theorem table_initialization :
    (∀ env st, ∃ v, init_table env true st =
        .ok { st with
              events := st.events ++ [.exec .dropTable, .exec .createTable, .createLog v],
              db := ⟨some ⟨benchColumns, []⟩⟩,
              durIdx := st.durIdx + 2 }) ∧
    benchColumns.map ColumnDef.name =
      ["id", "my_integer", "my_smallint", "my_decimal", "my_timestamp", "my_varchar"] ∧
    (∀ env n, createCount (eventsOf (insert env (.ok ()) ⟨none, none, n, .bulk⟩)) = 1) ∧
    (∀ env n, createCount (eventsOf (insert env (.ok ()) ⟨none, none, n, .classic⟩)) = 1) ∧
    (∀ env n p r, pyTruthy p = true → pyTruthy r = true →
      createCount (eventsOf (insert env (.ok ()) ⟨p, r, n, .copy⟩)) = 1) ∧
    (∀ env n p r, 1 ≤ n → pyTruthy p = true → pyTruthy r = true →
      createCount (eventsOf (insert env (.ok ()) ⟨p, r, n, .all⟩)) = 3) := by
  refine ⟨init_table_spec, rfl, ?_, ?_, ?_, ?_⟩
  · intro env n
    rcases Nat.eq_zero_or_pos n with h0 | hpos
    · subst h0
      rcases bulkBranch_zero env st0 with ⟨v, hb⟩
      rw [insert_bulk, hb]
      show createCount (st0.events ++ _) = 1
      simp [createCount, List.countP_append, List.countP_cons, List.countP_nil,
        isCreateExec, st0]
    · rcases bulkBranch_events env n hpos st0 with ⟨st', hb, _, e, he, hc, _⟩
      rw [insert_bulk, hb]
      show createCount st'.events = 1
      rw [he]
      simp only [createCount, List.countP_append] at hc ⊢
      simp [st0, hc]
  · intro env n
    rcases classicBranch_events env n st0 with ⟨st', hcl, e, he, hc⟩
    rw [insert_classic, hcl]
    show createCount st'.events = 1
    rw [he]
    simp only [createCount, List.countP_append] at hc ⊢
    simp [st0, hc]
  · intro env n p r hp hr
    rcases copyBranch_events env ⟨p, r, n, .copy⟩ st0 hr hp with ⟨st', hcp, e, he, hc⟩
    rw [insert_copy]
    rw [show ((connect_redshift (.ok ())).1.isSome) = true from rfl]
    rw [show ((connect_redshift (.ok ())).2 : List Event) = [] from rfl]
    rw [show (⟨[], ⟨none⟩, 0, 0⟩ : St) = st0 from rfl]
    rw [hcp]
    show createCount st'.events = 1
    rw [he]
    simp only [createCount, List.countP_append] at hc ⊢
    simp [st0, hc]
  · intro env n p r hn hp hr
    rcases bulkBranch_events env n hn st0 with ⟨st1, h1, _, e1, he1, hc1, _⟩
    rcases copyBranch_events env ⟨p, r, n, .all⟩ st1 hr hp with ⟨st2, h2, e2, he2, hc2⟩
    rcases classicBranch_events env n st2 with ⟨st3, h3, e3, he3, hc3⟩
    rw [insert_all, h1]
    simp only [stepBind]
    rw [h2]
    simp only [stepBind]
    rw [h3]
    show createCount st3.events = 3
    rw [he3, he2, he1]
    simp only [createCount, List.countP_append] at hc1 hc2 hc3 ⊢
    simp [st0, hc1, hc2, hc3]

/-- C7 (witness): the initialization theorem applied at a concrete state and
at concrete runs of the `copy` and `all` scenarios. -/
theorem table_initialization_witness :
    (pyTruthy (some "s3://bucket/path") = true ∧ pyTruthy (some "arn:aws:iam::role") = true ∧
      1 ≤ 2) ∧
    createCount (eventsOf (insert defaultEnv (.ok ())
      ⟨some "s3://bucket/path", some "arn:aws:iam::role", 2, .copy⟩)) = 1 ∧
    createCount (eventsOf (insert defaultEnv (.ok ())
      ⟨some "s3://bucket/path", some "arn:aws:iam::role", 2, .all⟩)) = 3 :=
  ⟨⟨rfl, rfl, by omega⟩,
   table_initialization.2.2.2.2.1 defaultEnv 2 _ _ rfl rfl,
   table_initialization.2.2.2.2.2 defaultEnv 2 _ _ (by omega) rfl rfl⟩

/-- C10: under the `all` selector the branches run in the fixed textual
order bulk, copy, classic.  First conjunct: when the copy parameters are
missing, the run exits with code 1 only after the bulk scenario has fully
run — the exit state's events are exactly the bulk-run events (at least one
executed SQL statement among them) followed by the parameter error.  Second
conjunct: with the parameters present, the `all` run is exactly the
sequential composition bulk-then-copy-then-classic, each branch appending
its events after those of the previous one. -/
theorem all_scenario_order :
    (∀ env n p r, 1 ≤ n → (pyTruthy r && pyTruthy p) = false →
      ∃ stB st, insert env (.ok ()) ⟨p, r, n, .bulk⟩ = .ok stB ∧
        insert env (.ok ()) ⟨p, r, n, .all⟩ = .exited 1 st ∧
        st.events = stB.events ++ [.copyParamErr] ∧
        1 ≤ execCount stB.events) ∧
    (∀ env n p r, 1 ≤ n → pyTruthy p = true → pyTruthy r = true →
      ∃ st1 st2 st3 e2 e3,
        bulkBranch env true n st0 = .ok st1 ∧
        copyBranch env true ⟨p, r, n, .all⟩ st1 = .ok st2 ∧
        classicBranch env true n st2 = .ok st3 ∧
        insert env (.ok ()) ⟨p, r, n, .all⟩ = .ok st3 ∧
        st2.events = st1.events ++ e2 ∧
        st3.events = st2.events ++ e3) := by
  constructor
  · intro env n p r hn hmiss
    rcases bulkBranch_events env n hn st0 with ⟨st1, h1, _, e1, he1, _, hex⟩
    refine ⟨st1, { st1 with events := st1.events ++ [.copyParamErr] }, ?_, ?_, rfl, ?_⟩
    · rw [insert_bulk, h1]
    · rw [insert_all, h1]
      simp only [stepBind]
      rw [copyBranch_missing _ _ _ _ hmiss]
    · have hEq : execCount st1.events = execCount e1 := by
        rw [he1]
        show execCount ([] ++ e1) = _
        rw [List.nil_append]
      omega
  · intro env n p r hn hp hr
    rcases bulkBranch_events env n hn st0 with ⟨st1, h1, _, e1, he1, _, _⟩
    rcases copyBranch_events env ⟨p, r, n, .all⟩ st1 hr hp with ⟨st2, h2, e2, he2, _⟩
    rcases classicBranch_events env n st2 with ⟨st3, h3, e3, he3, _⟩
    refine ⟨st1, st2, st3, e2, e3, h1, h2, h3, ?_, he2, he3⟩
    rw [insert_all, h1]
    simp only [stepBind]
    rw [h2]
    simp only [stepBind]
    rw [h3]

/-- C10 (witness): the ordering theorem applied at `n = 1`, once with both
copy parameters missing and once with both present. -/
theorem all_scenario_order_witness :
    (1 ≤ 1 ∧ (pyTruthy (none : Option String) && pyTruthy (none : Option String)) = false ∧
      pyTruthy (some "s3://bucket/path") = true ∧
      pyTruthy (some "arn:aws:iam::role") = true) ∧
    (∃ stB st, insert defaultEnv (.ok ()) ⟨none, none, 1, .bulk⟩ = .ok stB ∧
      insert defaultEnv (.ok ()) ⟨none, none, 1, .all⟩ = .exited 1 st ∧
      st.events = stB.events ++ [.copyParamErr] ∧
      1 ≤ execCount stB.events) ∧
    (∃ st1 st2 st3 e2 e3,
      bulkBranch defaultEnv true 1 st0 = .ok st1 ∧
      copyBranch defaultEnv true
        ⟨some "s3://bucket/path", some "arn:aws:iam::role", 1, .all⟩ st1 = .ok st2 ∧
      classicBranch defaultEnv true 1 st2 = .ok st3 ∧
      insert defaultEnv (.ok ())
        ⟨some "s3://bucket/path", some "arn:aws:iam::role", 1, .all⟩ = .ok st3 ∧
      st2.events = st1.events ++ e2 ∧
      st3.events = st2.events ++ e3) :=
  ⟨⟨le_refl 1, rfl, rfl, rfl⟩,
   all_scenario_order.1 defaultEnv 1 none none (le_refl 1) rfl,
   all_scenario_order.2 defaultEnv 1 _ _ (le_refl 1) rfl rfl⟩

set_option maxHeartbeats 1600000 in
lemma allRunOne (env : Env) :
    insert env (.ok ()) ⟨some "s3://bucket/path", some "arn:aws:iam::role", 1, .all⟩ =
      .ok ⟨[.exec .dropTable, .exec .createTable,
            .createLog (pyRound ((0 + env.dur 1) / 1000) 4),
            .exec (.bulkValues [genRow (env.rowE 0)]),
            .report (pyRound env.wallBulk 3) (pyRound (env.dur 2) 3),
            .exec .dropTable, .exec .createTable,
            .createLog (pyRound ((env.dur 3 + env.dur 4) / 1000) 4),
            .csvWrite (csvLines copyColumns [genRow (env.rowE 1)]),
            .exec (.copyFrom [genRow (env.rowE 1)]),
            .report (pyRound env.wallCopy 3) (pyRound (env.dur 5) 3),
            .exec .dropTable, .exec .createTable,
            .createLog (pyRound ((env.dur 6 + env.dur 7) / 1000) 4),
            .report (pyRound env.wallClassic 3) (pyRound 0 3)],
           ⟨some ⟨benchColumns, []⟩⟩, 8, 2⟩ := rfl

/-- C9: in a full run (`all` scenario, one record), each of the three
create-table log lines prints the summed measured statement time divided by
1000 — `round(t/1000, 4)`, as if converting milliseconds to seconds (a
failed drop contributes 0 to the sum) — while every scenario report line
prints the raw wall-clock difference and the raw summed SQL time rounded to
three decimals.  The last two conjuncts exhibit the unit inconsistency: a
measured 2 seconds is reported as 0.002 by the create-table line but as 2 by
a scenario line. -/
theorem timing_report_units (env : Env) :
    ∃ st, insert env (.ok ())
        ⟨some "s3://bucket/path", some "arn:aws:iam::role", 1, .all⟩ = .ok st ∧
      createLogs st.events =
        [pyRound ((0 + env.dur 1) / 1000) 4,
         pyRound ((env.dur 3 + env.dur 4) / 1000) 4,
         pyRound ((env.dur 6 + env.dur 7) / 1000) 4] ∧
      reports st.events =
        [(pyRound env.wallBulk 3, pyRound (env.dur 2) 3),
         (pyRound env.wallCopy 3, pyRound (env.dur 5) 3),
         (pyRound env.wallClassic 3, pyRound 0 3)] ∧
      pyRound ((2 : ℚ) / 1000) 4 = 1 / 500 ∧
      pyRound (2 : ℚ) 3 = 2 := by
  refine ⟨_, allRunOne env, rfl, rfl, ?_, ?_⟩
  · unfold pyRound
    norm_num [Int.fract]
  · unfold pyRound
    norm_num [Int.fract]

end RsBenchmark
